import Mathlib

/-!
# Expense tracker: transaction routes and client state

A shallow embedding of

* `backend/models/Transaction.js` (the document schema),
* `backend/route/transactionroutes.js` (the `GET /` and `POST /` handlers),
* `frontend/src/App.tsx` (`fetchTransactions`, `filteredTransactions`,
  `totalBalance`, `addTransaction`),

followed by the properties proved about them.

Conventions of the embedding.  JavaScript numbers are exact rationals together
with `NaN` and the two infinities; rounding and the sign of zero are not
represented.  Strings are Lean strings.  A request body is what
`express.json()` hands to the handler: every field is a JSON value or absent.
The document store is the list of stored documents in insertion order; the
server clock and the outcome of the storage call are inputs of each request.
On the client each `async` function is split at its `await`: the part before
the request, and the part run with the settled outcome of the request; a state
update is visible to the next call of a handler.
-/

namespace ExpenseTracker

/-! ## JavaScript values -/

/-- A JavaScript number: `NaN`, an infinity (`neg` tells its sign) or an exact rational. -/
inductive JNum where
  | nan
  | inf (neg : Bool)
  | fin (q : ℚ)
  deriving DecidableEq

/-- A value read from a parsed JSON body.  `undefined` is an absent key.  An
array is represented by the string `Array.prototype.toString` gives for it, a
plain object by its `_id` member when that member is a string. -/
inductive JVal where
  | undefined
  | null
  | bool (b : Bool)
  | num (q : ℚ)
  | str (s : String)
  | arr (joined : String)
  | obj (id : Option String)
  deriving DecidableEq

/-- JavaScript truthiness (`!v` is `!(truthy v)`): `undefined`, `null`, `false`,
`0` and `""` are falsy, everything else is truthy. -/
def JVal.truthy : JVal → Bool
  | .undefined => false
  | .null => false
  | .bool b => b
  | .num q => decide (q ≠ 0)
  | .str s => decide (s ≠ "")
  | .arr _ => true
  | .obj _ => true

/-- White space and line terminators skipped by `parseFloat` and trimmed by `Number`. -/
def isJsSpace (c : Char) : Bool :=
  c = '\t' || c = '\n' || c.toNat = 0x0B || c.toNat = 0x0C || c = '\r' || c = ' ' ||
  c.toNat = 0xA0 || c.toNat = 0x1680 || (0x2000 ≤ c.toNat && c.toNat ≤ 0x200A) ||
  c.toNat = 0x2028 || c.toNat = 0x2029 || c.toNat = 0x202F || c.toNat = 0x205F ||
  c.toNat = 0x3000 || c.toNat = 0xFEFF

/-- Value of a run of decimal digits. -/
def digitsValue (ds : List Char) : Nat :=
  ds.foldl (fun a c => 10 * a + (c.toNat - 48)) 0

/-- Optional sign in front of a numeral: `true` when it is `-`. -/
def scanSign : List Char → Bool × List Char
  | '-' :: cs => (true, cs)
  | '+' :: cs => (false, cs)
  | cs => (false, cs)

/-- Optional exponent part `e±ddd`; consumed only when at least one digit follows. -/
def scanExponent : List Char → Int × List Char
  | c :: cs =>
    if c = 'e' || c = 'E' then
      let (neg, r) := scanSign cs
      let (ds, r') := r.span Char.isDigit
      if ds.isEmpty then (0, c :: cs)
      else ((if neg then - (digitsValue ds : Int) else (digitsValue ds : Int)), r')
    else (0, c :: cs)
  | [] => (0, [])

/-- A decimal numeral as read: sign, digits with the point removed, and the
power of ten the digits are scaled by. -/
structure Dec where
  neg : Bool
  mant : Nat
  exp : Int
  deriving DecidableEq

/-- Result of reading a `StrDecimalLiteral`: an infinity or a decimal numeral. -/
inductive Numeral where
  | inf (neg : Bool)
  | dec (d : Dec)
  deriving DecidableEq

/-- Mathematical value of a decimal numeral. -/
def Dec.toRat (d : Dec) : ℚ :=
  if d.neg then - ((d.mant : ℚ) * (10 : ℚ) ^ d.exp) else (d.mant : ℚ) * (10 : ℚ) ^ d.exp

/-- The number a numeral denotes. -/
def Numeral.toJNum : Numeral → JNum
  | .inf neg => .inf neg
  | .dec d => .fin d.toRat

/-- Longest prefix of the input that is a `StrDecimalLiteral` (sign, then
`Infinity` or digits with an optional fraction and exponent), with the unread
rest; `none` when no prefix is a numeral. -/
def scanDecimal (cs : List Char) : Option (Numeral × List Char) :=
  let (neg, r) := scanSign cs
  if "Infinity".data.isPrefixOf r then some (.inf neg, r.drop 8)
  else
    let (ip, r1) := r.span Char.isDigit
    let (fp, r2) :=
      match r1 with
      | '.' :: t => if ip.isEmpty && !(t.head?.any Char.isDigit) then ([], r1) else t.span Char.isDigit
      | _ => ([], r1)
    if ip.isEmpty && fp.isEmpty then none
    else
      let (e, r3) := scanExponent r2
      some (.dec ⟨neg, digitsValue (ip ++ fp), e - fp.length⟩, r3)

/-- The global `parseFloat` on a string: skip leading white space, read the
longest decimal numeral, `NaN` when there is none. -/
def parseFloat (s : String) : JNum :=
  match scanDecimal (s.data.dropWhile isJsSpace) with
  | some (v, _) => v.toJNum
  | none => .nan

/-- Value of a digit in the given radix, if it is one. -/
def radixDigit (radix : Nat) (c : Char) : Option Nat :=
  let v :=
    if c.isDigit then c.toNat - 48
    else if 'a'.toNat ≤ c.toNat ∧ c.toNat ≤ 'f'.toNat then c.toNat - 87
    else if 'A'.toNat ≤ c.toNat ∧ c.toNat ≤ 'F'.toNat then c.toNat - 55
    else radix
  if v < radix then some v else none

/-- Value of a run of digits in the given radix; `none` when a character is not such a digit. -/
def radixDigits (radix : Nat) (cs : List Char) : Option Nat :=
  cs.foldl (fun acc c => acc.bind (fun a => (radixDigit radix c).map (fun d => radix * a + d))) (some 0)

/-- A non-empty run of digits in the given radix, read whole (`0x`, `0o`, `0b` literals). -/
def radixValue (radix : Nat) (cs : List Char) : JNum :=
  if cs.isEmpty then .nan
  else
    match radixDigits radix cs with
    | some n => .fin n
    | none => .nan

/-- `StringToNumber`: the numeric value of a whole string (`Number(s)`). -/
def stringToNumber (s : String) : JNum :=
  let t := ((s.data.dropWhile isJsSpace).reverse.dropWhile isJsSpace).reverse
  match t with
  | [] => .fin 0
  | '0' :: x :: r =>
    if x = 'x' || x = 'X' then radixValue 16 r
    else if x = 'o' || x = 'O' then radixValue 8 r
    else if x = 'b' || x = 'B' then radixValue 2 r
    else
      match scanDecimal t with
      | some (v, []) => v.toJNum
      | _ => .nan
  | _ =>
    match scanDecimal t with
    | some (v, []) => v.toJNum
    | _ => .nan

/-- `Number(v)` for a value of a JSON body. -/
def Number : JVal → JNum
  | .undefined => .nan
  | .null => .fin 0
  | .bool b => .fin (if b then 1 else 0)
  | .num q => .fin q
  | .str s => stringToNumber s
  | .arr joined => stringToNumber joined
  | .obj _ => .nan

/-- Decimal digits of the fractional part `r / d` (with `r < d`), at most `fuel` of them. -/
def fracDigits : Nat → Nat → Nat → List Char
  | 0, _, _ => []
  | fuel + 1, r, d =>
    if r = 0 then [] else Char.ofNat (48 + 10 * r / d) :: fracDigits fuel (10 * r % d) d

/-- `Number.prototype.toString` on a finite number, in plain decimal notation
(the exponent notation JavaScript switches to for very large and very small
magnitudes is not reproduced). -/
def numToString (q : ℚ) : String :=
  let n := q.num.natAbs
  let fp := fracDigits 20 (n % q.den) q.den
  (if q < 0 then "-" else "") ++ toString (n / q.den) ++
    (if fp.isEmpty then "" else "." ++ String.mk fp)

/-! ## `backend/models/Transaction.js` -/

/-- A stored document of the `Transaction` model: the five paths of
`transactionSchema`.  No path is `required`, so a string path may be unset.
The store-assigned `_id` plays no part in the handlers and is left out. -/
structure Doc where
  title : Option String
  amount : JNum
  type : Option String
  category : Option String
  date : Nat
  deriving DecidableEq

/-- The `enum` of the `type` path. -/
def enumValues : List String := ["income", "expense"]

/-- Cast of a value to a `String` path: `null`/`undefined` leave the path unset,
strings are kept, numbers and booleans are printed, an object with a non-empty
string `_id` becomes that string, arrays and other objects fail to cast. -/
def castString (path : String) : JVal → Except String (Option String)
  | .undefined => .ok none
  | .null => .ok none
  | .str s => .ok (some s)
  | .num q => .ok (some (numToString q))
  | .bool b => .ok (some (if b then "true" else "false"))
  | .obj (some id) =>
    if id ≠ "" then .ok (some id)
    else .error ("Transaction validation failed: " ++ path ++ ": Cast to string failed")
  | _ => .error ("Transaction validation failed: " ++ path ++ ": Cast to string failed")

/-- Cast of a number to a `Number` path: `NaN` fails to cast. -/
def castNumber (path : String) : JNum → Except String JNum
  | .nan => .error ("Transaction validation failed: " ++ path ++ ": Cast to Number failed")
  | n => .ok n

/-- The `enum` validator of the `type` path; an unset path is not validated. -/
def validateEnum (path : String) : Option String → Except String (Option String)
  | none => .ok none
  | some v =>
    if v ∈ enumValues then .ok (some v)
    else .error ("Transaction validation failed: " ++ path ++ ": not a valid enum value")

/-- The object literal handed to `new Transaction({...})`. -/
structure DocInput where
  title : JVal
  amount : JNum
  type : JVal
  category : JVal
  date : Nat

/-- Casting and validation of a new document against `transactionSchema`. -/
def validate (i : DocInput) : Except String Doc :=
  match castString "title" i.title with
  | .error m => .error m
  | .ok title =>
    match castNumber "amount" i.amount with
    | .error m => .error m
    | .ok amount =>
      match (castString "type" i.type).bind (validateEnum "type") with
      | .error m => .error m
      | .ok type =>
        match castString "category" i.category with
        | .error m => .error m
        | .ok category => .ok ⟨title, amount, type, category, i.date⟩

/-- What a request finds outside the handler: the server clock (`new Date()`)
and whether the document store answers (`none`) or fails with an error text. -/
structure Env where
  now : Nat
  storeFault : Option String

/-- The method `save()` of a new document: validation, then the write; the
stored document is appended to the collection. -/
def save (env : Env) (store : List Doc) (i : DocInput) : Except String (Doc × List Doc) :=
  match validate i with
  | .error m => .error m
  | .ok d =>
    match env.storeFault with
    | some m => .error m
    | none => .ok (d, store ++ [d])

/-- The query `Transaction.find()`: all documents, or the store's failure. -/
def find (env : Env) (store : List Doc) : Except String (List Doc) :=
  match env.storeFault with
  | some m => .error m
  | none => .ok store

/-- The cursor stage `.sort({ date: -1 })`: a sort on `date`, latest first. -/
def sortByDateDesc (l : List Doc) : List Doc :=
  l.insertionSort (fun a b => b.date ≤ a.date)

/-! ## `backend/route/transactionroutes.js` -/

/-- The fields the POST handler can find in `req.body`; `date` is what the
client sends along and the handler never reads. -/
structure Body where
  title : JVal
  amount : JVal
  type : JVal
  category : JVal
  date : JVal

/-- Body of a response. -/
inductive ResBody where
  | message (m : String)
  | doc (d : Doc)
  | docs (l : List Doc)
  deriving DecidableEq

/-- A response: status code and JSON body. -/
structure Response where
  status : Nat
  body : ResBody
  deriving DecidableEq

/-- The handler `router.get('/')`. -/
def routerGet (env : Env) (store : List Doc) : Response :=
  match find env store with
  | .ok transactions => ⟨200, .docs (sortByDateDesc transactions)⟩
  | .error _ => ⟨500, .message "Error fetching transactions"⟩

/-- The condition `!title || !amount || !type || !category` of the POST handler. -/
def requiredFieldMissing (body : Body) : Bool :=
  !body.title.truthy || !body.amount.truthy || !body.type.truthy || !body.category.truthy

/-- The handler `router.post('/')`: the response and the store afterwards. -/
def routerPost (env : Env) (store : List Doc) (body : Body) : Response × List Doc :=
  if requiredFieldMissing body then
    (⟨400, .message "Please provide all required fields: title, amount, type, and category"⟩,
      store)
  else
    match save env store ⟨body.title, Number body.amount, body.type, body.category, env.now⟩ with
    | .ok (savedTransaction, store') => (⟨201, .doc savedTransaction⟩, store')
    | .error m => (⟨400, .message m⟩, store)

/-- The store after a sequence of `POST /api/transactions` requests. -/
def postAll (store : List Doc) : List (Env × Body) → List Doc
  | [] => store
  | (env, body) :: rest => postAll (routerPost env store body).2 rest

/-! ## `frontend/src/App.tsx` -/

/-- The interface `Transaction`.  `type` is kept as the string the comparison
`curr.type === 'income'` reads, `date` as the string the server sent. -/
structure Transaction where
  id : String
  title : String
  amount : ℚ
  type : String
  category : String
  date : String
  deriving DecidableEq

/-- The union type `'income' | 'expense'` of the `type` state cell. -/
inductive TxType where
  | income
  | expense
  deriving DecidableEq

/-- The string a `TxType` is at run time. -/
def TxType.toString : TxType → String
  | .income => "income"
  | .expense => "expense"

/-- The `useState` cells of `App`. -/
structure AppState where
  transactions : List Transaction
  title : String
  amount : String
  type : TxType
  category : String
  isModalOpen : Bool
  error : Option String
  isLoading : Bool
  isSubmitting : Bool
  searchQuery : String
  deriving DecidableEq

/-- The initial values of the state cells. -/
def initialState : AppState :=
  { transactions := [], title := "", amount := "", type := .expense, category := "general",
    isModalOpen := false, error := none, isLoading := false, isSubmitting := false,
    searchQuery := "" }

/-- The values of the `<option>` elements of the category `<select>`. -/
def categoryOptions : List String := ["general", "food", "transport", "entertainment"]

/-- `String.prototype.toLowerCase`, on the ASCII letters. -/
def toLowerCase (s : String) : String := ⟨s.data.map Char.toLower⟩

/-- `String.prototype.includes`: `search` occurs in `s` at some position. -/
def includes (s search : String) : Bool :=
  s.data.tails.any (fun t => search.data.isPrefixOf t)

/-- The constant `filteredTransactions`, as a function of the two state cells it reads. -/
def filteredTransactions (transactions : List Transaction) (searchQuery : String) :
    List Transaction :=
  transactions.filter (fun transaction =>
    includes (toLowerCase transaction.title) (toLowerCase searchQuery) ||
    includes (toLowerCase transaction.category) (toLowerCase searchQuery))

/-- The constant `totalBalance`: a `reduce` from `0`. -/
def totalBalance (transactions : List Transaction) : ℚ :=
  transactions.foldl
    (fun acc curr => if curr.type = "income" then acc + curr.amount else acc - curr.amount) 0

/-- The part of `fetchTransactions` before the request is awaited. -/
def fetchTransactionsBegin (s : AppState) : AppState :=
  { s with isLoading := true, error := none }

/-- The part of `fetchTransactions` after the request settled: `try` or
`catch` branch, then `finally`. -/
def fetchTransactionsEnd (s : AppState) (response : Except String (List Transaction)) :
    AppState :=
  let s1 :=
    match response with
    | .ok data => { s with transactions := data }
    | .error _ => { s with error := some "Failed to load transactions. Please try again." }
  { s1 with isLoading := false }

/-- The function `fetchTransactions`, run against the outcome of the list request. -/
def fetchTransactions (s : AppState) (response : Except String (List Transaction)) : AppState :=
  fetchTransactionsEnd (fetchTransactionsBegin s) response

/-- The object `newTransaction` sent by `addTransaction`. -/
structure NewTransaction where
  title : String
  amount : JNum
  type : TxType
  category : String
  date : String
  deriving DecidableEq

/-- The part of `addTransaction` up to the request: the guard, the two state
updates and the payload.  `today` is `new Date().toISOString().split('T')[0]`.
No request is issued exactly when the second component is `none`. -/
def addTransactionBegin (today : String) (s : AppState) : AppState × Option NewTransaction :=
  if s.title = "" || s.amount = "" || s.isSubmitting then (s, none)
  else
    ({ s with isSubmitting := true, error := none },
      some ⟨s.title, parseFloat s.amount, s.type, s.category, today⟩)

/-- The part of `addTransaction` after the request settled: `try` or `catch`
branch, then `finally`. -/
def addTransactionEnd (s : AppState) (response : Except String Transaction) : AppState :=
  let s1 :=
    match response with
    | .ok data =>
      { s with transactions := data :: s.transactions, title := "", amount := "",
               isModalOpen := false }
    | .error _ => { s with error := some "Failed to add transaction. Please try again." }
  { s1 with isSubmitting := false }

/-- The function `addTransaction`, run against a server that answers the
request with `respond`. -/
def addTransaction (today : String) (s : AppState)
    (respond : NewTransaction → Except String Transaction) : AppState :=
  match addTransactionBegin today s with
  | (s1, some newTransaction) => addTransactionEnd s1 (respond newTransaction)
  | (s1, none) => s1

/-- How `JSON.stringify` writes a number: `NaN` and the infinities become `null`. -/
def jsonNumber : JNum → JVal
  | .fin q => .num q
  | _ => .null

/-- The request body the server parses from the payload `axios.post` sends. -/
def requestBody (t : NewTransaction) : Body :=
  ⟨.str t.title, jsonNumber t.amount, .str t.type.toString, .str t.category, .str t.date⟩

/-! ## Vocabulary of the properties -/

/-- Sum of `amount` over the records of the given `type`. -/
def sumOfType (ty : String) (L : List Transaction) : ℚ :=
  ((L.filter (fun r => r.type = ty)).map (fun r => r.amount)).sum

/-- The search criterion in the words of the specification: the lower-cased
query occurs as a substring of the lower-cased title or of the lower-cased
category. -/
def matchesQuery (r : Transaction) (q : String) : Prop :=
  (toLowerCase q).data <:+: (toLowerCase r.title).data ∨
  (toLowerCase q).data <:+: (toLowerCase r.category).data

/-- A field counts as missing when its key is absent, its value is `null`, or
it is the empty string. -/
def isMissing : JVal → Bool
  | .undefined => true
  | .null => true
  | .str s => decide (s = "")
  | _ => false

/-- The message of the required-fields response. -/
def missingFieldsMessage : String :=
  "Please provide all required fields: title, amount, type, and category"

/-- A number that is not negative (`NaN` is not). -/
def JNum.nonneg : JNum → Bool
  | .nan => false
  | .inf neg => !neg
  | .fin q => decide (0 ≤ q)

/-- The `type` of a stored record is one of the two enumerated strings. -/
def Doc.typeOk (d : Doc) : Prop := d.type = some "income" ∨ d.type = some "expense"

/-- Records listed latest first: every adjacent pair has non-increasing dates. -/
def DescendingByDate (l : List Transaction) : Prop :=
  l.Chain' (fun r1 r2 => r1.date ≥ r2.date)

/-! ## Derived views of the client -/

theorem foldl_balance (L : List Transaction) (acc : ℚ)
    (h : ∀ r ∈ L, r.type = "income" ∨ r.type = "expense") :
    L.foldl (fun acc curr => if curr.type = "income" then acc + curr.amount else acc - curr.amount)
      acc = acc + sumOfType "income" L - sumOfType "expense" L := by
  induction L generalizing acc with
  | nil => simp [sumOfType]
  | cons r L ih =>
    have hL : ∀ x ∈ L, x.type = "income" ∨ x.type = "expense" :=
      fun x hx => h x (List.mem_cons_of_mem _ hx)
    rw [List.foldl_cons, ih _ hL]
    rcases h r (List.mem_cons_self _ _) with hr | hr
    · have hne : ¬ (r.type = "expense") := by rw [hr]; decide
      simp only [sumOfType] at *
      simp [hr, List.filter_cons]
      ring
    · have hne : ¬ (r.type = "income") := by rw [hr]; decide
      simp only [sumOfType] at *
      simp [hr, List.filter_cons]
      ring

/-- C1: for every list whose records are of type income or expense,
`totalBalance` is the sum of the income amounts minus the sum of the expense
amounts; on the list of an income of 100 and an expense of 40 it is 60. -/
theorem totalBalance_eq_income_sub_expense (L : List Transaction)
    (h : ∀ r ∈ L, r.type = "income" ∨ r.type = "expense") :
    totalBalance L = sumOfType "income" L - sumOfType "expense" L ∧
    ∀ a b : Transaction, a.amount = 100 → a.type = "income" → b.amount = 40 →
      b.type = "expense" → totalBalance [a, b] = 60 := by
  refine ⟨?_, ?_⟩
  · unfold totalBalance
    rw [foldl_balance L 0 h]
    ring
  · intro a b ha hta hb htb
    simp [totalBalance, ha, hta, hb, htb]
    norm_num

theorem totalBalance_eq_income_sub_expense_witness :
    (∀ r ∈ [(⟨"1", "Salary", 100, "income", "general", "2024-01-02"⟩ : Transaction),
        ⟨"2", "Lunch", 40, "expense", "food", "2024-01-01"⟩],
      r.type = "income" ∨ r.type = "expense") ∧
    totalBalance [⟨"1", "Salary", 100, "income", "general", "2024-01-02"⟩,
      ⟨"2", "Lunch", 40, "expense", "food", "2024-01-01"⟩] =
      sumOfType "income" [⟨"1", "Salary", 100, "income", "general", "2024-01-02"⟩,
        ⟨"2", "Lunch", 40, "expense", "food", "2024-01-01"⟩] -
      sumOfType "expense" [⟨"1", "Salary", 100, "income", "general", "2024-01-02"⟩,
        ⟨"2", "Lunch", 40, "expense", "food", "2024-01-01"⟩] ∧
    totalBalance [⟨"1", "Salary", 100, "income", "general", "2024-01-02"⟩,
      ⟨"2", "Lunch", 40, "expense", "food", "2024-01-01"⟩] = 60 :=
  ⟨by decide,
    (totalBalance_eq_income_sub_expense
      [⟨"1", "Salary", 100, "income", "general", "2024-01-02"⟩,
        ⟨"2", "Lunch", 40, "expense", "food", "2024-01-01"⟩]
      (by decide)).1,
    (totalBalance_eq_income_sub_expense
      [⟨"1", "Salary", 100, "income", "general", "2024-01-02"⟩,
        ⟨"2", "Lunch", 40, "expense", "food", "2024-01-01"⟩]
      (by decide)).2 _ _ rfl rfl rfl rfl⟩

theorem includes_iff (s search : String) :
    includes s search = true ↔ search.data <:+: s.data := by
  unfold includes
  rw [List.any_eq_true, List.infix_iff_prefix_suffix]
  constructor
  · rintro ⟨t, ht, hp⟩
    exact ⟨t, List.isPrefixOf_iff_prefix.mp hp, (List.mem_tails _ _).mp ht⟩
  · rintro ⟨t, hp, ht⟩
    exact ⟨t, (List.mem_tails _ _).mpr ht, List.isPrefixOf_iff_prefix.mpr hp⟩

theorem filter_pred_iff (r : Transaction) (q : String) :
    (includes (toLowerCase r.title) (toLowerCase q) ||
      includes (toLowerCase r.category) (toLowerCase q)) = true ↔ matchesQuery r q := by
  rw [Bool.or_eq_true, includes_iff, includes_iff]
  rfl

/-- C2: `filteredTransactions` is a subsequence of the list, holds exactly the
records whose lower-cased title or category contains the lower-cased query,
each as often as the list does, and is the whole list for the empty query. -/
theorem filteredTransactions_spec (L : List Transaction) (q : String) :
    (filteredTransactions L q).Sublist L ∧
    (∀ r, r ∈ filteredTransactions L q ↔ r ∈ L ∧ matchesQuery r q) ∧
    (∀ r, matchesQuery r q → (filteredTransactions L q).count r = L.count r) ∧
    filteredTransactions L "" = L := by
  refine ⟨List.filter_sublist _, ?_, ?_, ?_⟩
  · intro r
    unfold filteredTransactions
    rw [List.mem_filter, filter_pred_iff]
  · intro r hr
    unfold filteredTransactions
    exact List.count_filter ((filter_pred_iff r q).mpr hr)
  · unfold filteredTransactions
    rw [List.filter_eq_self]
    intro r _
    rw [filter_pred_iff]
    exact Or.inl List.nil_infix

/-! ## The POST handler -/

theorem truthy_false_of_isMissing (v : JVal) (h : isMissing v = true) : v.truthy = false := by
  cases v <;> simp_all [isMissing, JVal.truthy]

theorem routerPost_of_requiredFieldMissing (env : Env) (store : List Doc) (body : Body)
    (h : requiredFieldMissing body = true) :
    routerPost env store body = (⟨400, .message missingFieldsMessage⟩, store) := by
  simp [routerPost, h, missingFieldsMessage]

/-- C3: when one of `title`, `amount`, `type`, `category` is missing from the
body, `POST /api/transactions` answers 400 with a message and the store is
unchanged, so its record count is the same. -/
theorem routerPost_missing_rejected (env : Env) (store : List Doc) (body : Body)
    (h : isMissing body.title = true ∨ isMissing body.amount = true ∨
      isMissing body.type = true ∨ isMissing body.category = true) :
    (routerPost env store body).1.status = 400 ∧
    (∃ m, (routerPost env store body).1.body = .message m) ∧
    (routerPost env store body).2 = store ∧
    (routerPost env store body).2.length = store.length := by
  have hm : requiredFieldMissing body = true := by
    unfold requiredFieldMissing
    rcases h with h | h | h | h <;> simp [truthy_false_of_isMissing _ h]
  rw [routerPost_of_requiredFieldMissing env store body hm]
  exact ⟨rfl, ⟨_, rfl⟩, rfl, rfl⟩

theorem routerPost_missing_rejected_witness :
    isMissing (JVal.str "") = true ∧
    (routerPost ⟨1700000000000, none⟩ []
      ⟨.str "", .num 5, .str "expense", .str "food", .undefined⟩).1.status = 400 ∧
    (routerPost ⟨1700000000000, none⟩ []
      ⟨.str "", .num 5, .str "expense", .str "food", .undefined⟩).2 = [] :=
  ⟨by decide,
    (routerPost_missing_rejected ⟨1700000000000, none⟩ []
      ⟨.str "", .num 5, .str "expense", .str "food", .undefined⟩ (Or.inl (by decide))).1,
    (routerPost_missing_rejected ⟨1700000000000, none⟩ []
      ⟨.str "", .num 5, .str "expense", .str "food", .undefined⟩ (Or.inl (by decide))).2.2.1⟩

theorem stringToNumber_zero : stringToNumber "0" = .fin 0 := by
  have h : scanDecimal "0".data = some (.dec ⟨false, 0, 0⟩, []) := by decide
  have ht : (("0".data.dropWhile isJsSpace).reverse.dropWhile isJsSpace).reverse = "0".data := by
    decide
  unfold stringToNumber
  simp only [ht]
  show (match scanDecimal "0".data with
    | some (v, []) => v.toJNum
    | _ => JNum.nan) = JNum.fin 0
  rw [h]
  simp [Numeral.toJNum, Dec.toRat]

/-- C4: a create payload with every field present and the number `0` as amount
is answered 400 with the required-fields message and nothing is stored, while
the same payload with the string `"0"` as amount is answered 201 and stored
with amount `0`. -/
theorem routerPost_zero_amount (now : Nat) (store : List Doc) :
    routerPost ⟨now, none⟩ store ⟨.str "Coffee", .num 0, .str "expense", .str "food", .undefined⟩
      = (⟨400, .message missingFieldsMessage⟩, store) ∧
    routerPost ⟨now, none⟩ store
        ⟨.str "Coffee", .str "0", .str "expense", .str "food", .undefined⟩
      = (⟨201, .doc ⟨some "Coffee", .fin 0, some "expense", some "food", now⟩⟩,
          store ++ [⟨some "Coffee", .fin 0, some "expense", some "food", now⟩]) := by
  refine ⟨?_, ?_⟩
  · exact routerPost_of_requiredFieldMissing _ _ _ (by decide)
  · have hm : requiredFieldMissing
        ⟨.str "Coffee", .str "0", .str "expense", .str "food", .undefined⟩ = false := by decide
    simp [routerPost, hm, save, validate, castString, castNumber, validateEnum, enumValues,
      Number, stringToNumber_zero, Except.bind]

theorem routerPost_created (env : Env) (store : List Doc) (body : Body) (t ty c : String)
    (ht : body.title = .str t) (ht0 : t ≠ "") (hty : body.type = .str ty)
    (hty0 : ty = "income" ∨ ty = "expense") (hc : body.category = .str c) (hc0 : c ≠ "")
    (ha : body.amount.truthy = true) (hn : Number body.amount ≠ .nan)
    (hs : env.storeFault = none) :
    routerPost env store body =
      (⟨201, .doc ⟨some t, Number body.amount, some ty, some c, env.now⟩⟩,
        store ++ [⟨some t, Number body.amount, some ty, some c, env.now⟩]) := by
  have hm : requiredFieldMissing body = false := by
    have hty1 : ty ≠ "" := by rcases hty0 with h | h <;> rw [h] <;> decide
    unfold requiredFieldMissing
    rw [ht, hty, hc, ha]
    simp [JVal.truthy, ht0, hty1, hc0]
  have hcast : castNumber "amount" (Number body.amount) = .ok (Number body.amount) := by
    cases h : Number body.amount <;> simp_all [castNumber]
  have henum : ty ∈ enumValues := by
    rcases hty0 with h | h <;> simp [h, enumValues]
  simp [routerPost, hm, save, validate, castString, hcast, validateEnum, henum, ht, hty, hc, hs,
    Except.bind]

/-! ## The GET handler -/

/-- C5: when the store answers the query, `GET /api/transactions` returns with
status 200 a permutation of the stored records in which every adjacent pair
has non-increasing dates; on the empty store it returns the empty list. -/
theorem routerGet_sorted (env : Env) (store : List Doc) (h : env.storeFault = none) :
    (∃ l, routerGet env store = ⟨200, .docs l⟩ ∧ l.Perm store ∧
      l.Chain' (fun r1 r2 => r1.date ≥ r2.date)) ∧
    routerGet env [] = ⟨200, .docs []⟩ := by
  haveI : IsTotal Doc (fun a b => b.date ≤ a.date) := ⟨fun a b => Nat.le_total b.date a.date⟩
  haveI : IsTrans Doc (fun a b => b.date ≤ a.date) := ⟨fun _ _ _ hab hbc => Nat.le_trans hbc hab⟩
  refine ⟨⟨sortByDateDesc store, ?_, List.perm_insertionSort _ _, ?_⟩, ?_⟩
  · simp [routerGet, find, h]
  · exact List.Pairwise.chain' (List.sorted_insertionSort (fun a b : Doc => b.date ≤ a.date) store)
  · simp [routerGet, find, h, sortByDateDesc]

theorem routerGet_sorted_witness :
    (⟨0, none⟩ : Env).storeFault = none ∧
    (∃ l, routerGet ⟨0, none⟩
        [⟨some "a", .fin 1, some "income", some "general", 10⟩,
          ⟨some "b", .fin 2, some "expense", some "food", 30⟩,
          ⟨some "c", .fin 3, some "expense", some "food", 20⟩] = ⟨200, .docs l⟩ ∧
      l.Perm [⟨some "a", .fin 1, some "income", some "general", 10⟩,
          ⟨some "b", .fin 2, some "expense", some "food", 30⟩,
          ⟨some "c", .fin 3, some "expense", some "food", 20⟩] ∧
      l.Chain' (fun r1 r2 => r1.date ≥ r2.date)) :=
  ⟨rfl, (routerGet_sorted ⟨0, none⟩ _ rfl).1⟩

/-! ## Stored records -/

theorem castString_truthy (path : String) (v : JVal) (o : Option String)
    (hv : v.truthy = true) (h : castString path v = .ok o) : o ≠ none := by
  cases v with
  | undefined => simp [JVal.truthy] at hv
  | null => simp [JVal.truthy] at hv
  | bool b => simp [castString] at h; subst h; simp
  | num q => simp [castString] at h; subst h; simp
  | str s => simp [castString] at h; subst h; simp
  | arr j => simp [castString] at h
  | obj id =>
    cases id with
    | none => simp [castString] at h
    | some i =>
      simp only [castString] at h
      split at h
      · simp at h; subst h; simp
      · simp at h

theorem validateEnum_ok (path : String) (o o' : Option String)
    (h : validateEnum path o = .ok o') : o' = o ∧ ∀ v, o = some v → v ∈ enumValues := by
  cases o with
  | none => simp [validateEnum] at h; subst h; simp
  | some v =>
    simp only [validateEnum] at h
    split at h
    · rename_i hv
      simp at h
      subst h
      exact ⟨rfl, fun w hw => by cases hw; exact hv⟩
    · simp at h

theorem validate_ok (i : DocInput) (d : Doc) (ht : i.type.truthy = true)
    (h : validate i = .ok d) : d.typeOk ∧ d.amount ≠ .nan ∧ d.amount = i.amount ∧ d.date = i.date := by
  unfold validate at h
  split at h
  · simp at h
  · split at h
    · simp at h
    · rename_i amount ha
      split at h
      · simp at h
      · rename_i type hty
        split at h
        · simp at h
        · simp at h
          subst h
          have hamount : amount ≠ .nan ∧ amount = i.amount := by
            cases hi : i.amount <;> simp [hi, castNumber] at ha <;> simp [← ha]
          refine ⟨?_, hamount.1, hamount.2, rfl⟩
          cases hc : castString "type" i.type with
          | error m => simp [hc, Except.bind] at hty
          | ok o =>
            simp [hc, Except.bind] at hty
            obtain ⟨ho, hmem⟩ := validateEnum_ok _ _ _ hty
            have hne := castString_truthy _ _ _ ht hc
            subst ho
            cases type with
            | none => exact absurd rfl hne
            | some v =>
              have := hmem v rfl
              simp [enumValues] at this
              rcases this with h1 | h1
              · exact Or.inl (by rw [h1])
              · exact Or.inr (by rw [h1])

theorem routerPost_store (env : Env) (store : List Doc) (body : Body) :
    (routerPost env store body).2 = store ∨
    ∃ d, (routerPost env store body).2 = store ++ [d] ∧ d.typeOk ∧ d.amount ≠ .nan := by
  unfold routerPost
  split
  · exact Or.inl rfl
  · rename_i hreq
    have htype : body.type.truthy = true := by
      simp [requiredFieldMissing] at hreq
      exact hreq.1.2
    split
    · rename_i saved store' hs
      right
      unfold save at hs
      split at hs
      · simp at hs
      · rename_i d hv
        split at hs
        · simp at hs
        · simp at hs
          obtain ⟨_, rfl⟩ := hs
          have := validate_ok _ d htype hv
          exact ⟨d, rfl, this.1, this.2.1⟩
    · exact Or.inl rfl

theorem postAll_invariant (P : Doc → Prop) (hstep : ∀ env store body,
      (routerPost env store body).2 = store ∨
      ∃ d, (routerPost env store body).2 = store ++ [d] ∧ P d)
    (reqs : List (Env × Body)) (store : List Doc) (h : ∀ d ∈ store, P d) :
    ∀ d ∈ postAll store reqs, P d := by
  induction reqs generalizing store with
  | nil => simpa [postAll] using h
  | cons r rest ih =>
    obtain ⟨env, body⟩ := r
    simp only [postAll]
    apply ih
    rcases hstep env store body with hs | ⟨d, hs, hd⟩
    · rw [hs]; exact h
    · rw [hs]
      intro x hx
      rcases List.mem_append.mp hx with hx | hx
      · exact h x hx
      · simp at hx; subst hx; exact hd

/-- C6 as stated fails: after the single request with title `Refund`, amount
`-5`, type `expense` and category `food` on the empty store, the store holds a
record whose amount is `-5`, which is negative. -/
theorem stored_amount_negative :
    (⟨some "Refund", .fin (-5), some "expense", some "food", 0⟩ : Doc) ∈
      postAll [] [(⟨0, none⟩,
        ⟨.str "Refund", .num (-5), .str "expense", .str "food", .undefined⟩)] ∧
    (JNum.fin (-5)).nonneg = false := by
  have hm : requiredFieldMissing
      ⟨.str "Refund", .num (-5), .str "expense", .str "food", .undefined⟩ = false := by
    simp [requiredFieldMissing, JVal.truthy]
  refine ⟨?_, ?_⟩
  · simp [postAll, routerPost, hm, save, validate, castString, castNumber, validateEnum,
      enumValues, Number, Except.bind]
  · norm_num [JNum.nonneg]

/-- C6 (amended): in every store reached from the empty store by `POST
/api/transactions` requests with arbitrary bodies, every record has its `type`
in {income, expense} and an amount that is a number (not `NaN`). -/
theorem stored_type_in_enum (reqs : List (Env × Body)) :
    ∀ d ∈ postAll [] reqs, d.typeOk ∧ d.amount ≠ .nan :=
  postAll_invariant (fun d => d.typeOk ∧ d.amount ≠ .nan) routerPost_store reqs []
    (fun _ h => absurd h (List.not_mem_nil _))

theorem stored_type_in_enum_witness :
    (⟨some "Refund", .fin (-5), some "expense", some "food", 7⟩ : Doc) ∈
      postAll [] [(⟨3, none⟩,
          ⟨.str "Gift", .num 20, .str "transfer", .str "general", .undefined⟩),
        (⟨7, none⟩, ⟨.str "Refund", .num (-5), .str "expense", .str "food", .undefined⟩)] ∧
    (⟨some "Refund", .fin (-5), some "expense", some "food", 7⟩ : Doc).typeOk :=
  have hmem : (⟨some "Refund", .fin (-5), some "expense", some "food", 7⟩ : Doc) ∈
      postAll [] [(⟨3, none⟩,
          ⟨.str "Gift", .num 20, .str "transfer", .str "general", .undefined⟩),
        (⟨7, none⟩, ⟨.str "Refund", .num (-5), .str "expense", .str "food", .undefined⟩)] := by
    simp [postAll, routerPost, requiredFieldMissing, JVal.truthy, save, validate, castString,
      castNumber, validateEnum, enumValues, Number, Except.bind]
  ⟨hmem, (stored_type_in_enum _ _ hmem).1⟩

/-! ## Client state transitions -/

theorem addTransactionBegin_blocked (today : String) (s : AppState)
    (h : s.title = "" ∨ s.amount = "" ∨ s.isSubmitting = true) :
    addTransactionBegin today s = (s, none) := by
  unfold addTransactionBegin
  rcases h with h | h | h <;> simp [h]

theorem addTransactionBegin_passed (today : String) (s : AppState)
    (hg : s.title ≠ "" ∧ s.amount ≠ "" ∧ s.isSubmitting = false) :
    addTransactionBegin today s =
      ({ s with isSubmitting := true, error := none },
        some ⟨s.title, parseFloat s.amount, s.type, s.category, today⟩) := by
  unfold addTransactionBegin
  simp [hg.1, hg.2.1, hg.2.2]

theorem addTransactionBegin_some (today : String) (s s1 : AppState) (req : NewTransaction)
    (h : addTransactionBegin today s = (s1, some req)) :
    s1 = { s with isSubmitting := true, error := none } := by
  unfold addTransactionBegin at h
  split at h
  · simp at h
  · simp at h
    exact h.1.symm

/-- C7: when the draft title is empty, the draft amount is empty, or a
submission is in flight, `addTransaction` issues no request and leaves the
whole state unchanged; so when this state is the in-flight state of an earlier
submit, that earlier request's record is the only one added to the list. -/
theorem addTransaction_guard_noop (today : String) (s : AppState)
    (h : s.title = "" ∨ s.amount = "" ∨ s.isSubmitting = true) :
    addTransactionBegin today s = (s, none) ∧
    (∀ respond, addTransaction today s respond = s) ∧
    (∀ today0 s0 req r, addTransactionBegin today0 s0 = (s, some req) →
      (addTransactionEnd (addTransaction today s (fun _ => .ok r)) (.ok r)).transactions
        = r :: s0.transactions ∧
      (addTransactionEnd (addTransaction today s (fun _ => .ok r)) (.ok r)).transactions.length
        = s0.transactions.length + 1) := by
  have hb := addTransactionBegin_blocked today s h
  have ha : ∀ respond, addTransaction today s respond = s := by
    intro respond
    unfold addTransaction
    rw [hb]
  refine ⟨hb, ha, ?_⟩
  intro today0 s0 req r h0
  rw [ha]
  have hs := addTransactionBegin_some today0 s0 s req h0
  subst hs
  simp [addTransactionEnd]

theorem addTransaction_guard_noop_witness :
    ({ initialState with title := "Coffee", amount := "5", isSubmitting := true } :
      AppState).isSubmitting = true ∧
    addTransactionBegin "2024-01-02"
        { initialState with title := "Coffee", amount := "5", isSubmitting := true } =
      ({ initialState with title := "Coffee", amount := "5", isSubmitting := true }, none) :=
  ⟨rfl, (addTransaction_guard_noop "2024-01-02"
    { initialState with title := "Coffee", amount := "5", isSubmitting := true }
    (Or.inr (Or.inr rfl))).1⟩

/-- C8: after a failing list request `fetchTransactions` leaves the list as it
was, sets the error to a message and clears the loading flag; after a
successful one the list is the response and the loading flag is cleared. -/
theorem fetchTransactions_outcome (s : AppState) :
    (∀ e, (fetchTransactions s (.error e)).transactions = s.transactions ∧
      (∃ m, (fetchTransactions s (.error e)).error = some m) ∧
      (fetchTransactions s (.error e)).isLoading = false) ∧
    (∀ data, (fetchTransactions s (.ok data)).transactions = data ∧
      (fetchTransactions s (.ok data)).isLoading = false) := by
  refine ⟨fun e => ⟨rfl, ⟨_, rfl⟩, rfl⟩, fun data => ⟨rfl, rfl⟩⟩

/-- C9: when the submit guard passes, a request is issued; if it succeeds with
record `r` the list becomes `r` followed by the previous list, title and amount
of the draft are cleared and the in-flight flag is cleared; if it fails the
list is unchanged, the error is set and the in-flight flag is cleared; and a
list in descending date order stays so when `r` is at least as late as every
record in it. -/
theorem addTransaction_outcome (today : String) (s : AppState)
    (hg : s.title ≠ "" ∧ s.amount ≠ "" ∧ s.isSubmitting = false) :
    (∃ s1 req, addTransactionBegin today s = (s1, some req)) ∧
    (∀ respond r,
      respond ⟨s.title, parseFloat s.amount, s.type, s.category, today⟩ = .ok r →
      (addTransaction today s respond).transactions = r :: s.transactions ∧
      (addTransaction today s respond).title = "" ∧
      (addTransaction today s respond).amount = "" ∧
      (addTransaction today s respond).isSubmitting = false ∧
      (DescendingByDate s.transactions → (∀ t ∈ s.transactions, r.date ≥ t.date) →
        DescendingByDate (addTransaction today s respond).transactions)) ∧
    (∀ respond e,
      respond ⟨s.title, parseFloat s.amount, s.type, s.category, today⟩ = .error e →
      (addTransaction today s respond).transactions = s.transactions ∧
      (∃ m, (addTransaction today s respond).error = some m) ∧
      (addTransaction today s respond).isSubmitting = false) := by
  have hb := addTransactionBegin_passed today s hg
  refine ⟨⟨_, _, hb⟩, ?_, ?_⟩
  · intro respond r hr
    have hlist : (addTransaction today s respond).transactions = r :: s.transactions := by
      simp [addTransaction, hb, hr, addTransactionEnd]
    refine ⟨hlist, ?_, ?_, ?_, ?_⟩
    · simp [addTransaction, hb, hr, addTransactionEnd]
    · simp [addTransaction, hb, hr, addTransactionEnd]
    · simp [addTransaction, hb, hr, addTransactionEnd]
    · intro hsorted hlate
      rw [hlist]
      unfold DescendingByDate at *
      rw [List.chain'_cons']
      refine ⟨?_, hsorted⟩
      intro y hy
      exact hlate y (List.mem_of_mem_head? hy)
  · intro respond e he
    refine ⟨?_, ?_, ?_⟩
    · simp [addTransaction, hb, he, addTransactionEnd]
    · exact ⟨"Failed to add transaction. Please try again.", by
        simp [addTransaction, hb, he, addTransactionEnd]⟩
    · simp [addTransaction, hb, he, addTransactionEnd]

theorem addTransaction_outcome_witness :
    (("Coffee" : String) ≠ "" ∧ ("5" : String) ≠ "" ∧ false = false) ∧
    (addTransaction "2024-01-02"
        { initialState with
          title := "Coffee", amount := "5",
          transactions := [⟨"1", "Salary", 100, "income", "general", "2024-01-01"⟩] }
        (fun _ => .ok ⟨"2", "Coffee", 5, "expense", "general", "2024-01-02"⟩)).transactions =
      [⟨"2", "Coffee", 5, "expense", "general", "2024-01-02"⟩,
        ⟨"1", "Salary", 100, "income", "general", "2024-01-01"⟩] ∧
    DescendingByDate (addTransaction "2024-01-02"
        { initialState with
          title := "Coffee", amount := "5",
          transactions := [⟨"1", "Salary", 100, "income", "general", "2024-01-01"⟩] }
        (fun _ => .ok ⟨"2", "Coffee", 5, "expense", "general", "2024-01-02"⟩)).transactions :=
  ⟨by decide,
    ((addTransaction_outcome "2024-01-02"
      { initialState with
        title := "Coffee", amount := "5",
        transactions := [⟨"1", "Salary", 100, "income", "general", "2024-01-01"⟩] }
      (by decide)).2.1 (fun _ => .ok ⟨"2", "Coffee", 5, "expense", "general", "2024-01-02"⟩)
      ⟨"2", "Coffee", 5, "expense", "general", "2024-01-02"⟩ rfl).1,
    ((addTransaction_outcome "2024-01-02"
      { initialState with
        title := "Coffee", amount := "5",
        transactions := [⟨"1", "Salary", 100, "income", "general", "2024-01-01"⟩] }
      (by decide)).2.1 (fun _ => .ok ⟨"2", "Coffee", 5, "expense", "general", "2024-01-02"⟩)
      ⟨"2", "Coffee", 5, "expense", "general", "2024-01-02"⟩ rfl).2.2.2.2
      (List.chain'_singleton _)
      (by
        intro t ht
        simp [initialState] at ht
        subst ht
        show ("2024-01-01" : String) ≤ "2024-01-02"
        rw [String.le_iff_toList_le]
        decide)⟩

/-! ## Client guard against server validation -/

theorem parseFloat_zero : parseFloat "0" = .fin 0 := by
  have h : scanDecimal ("0".data.dropWhile isJsSpace) = some (.dec ⟨false, 0, 0⟩, []) := by decide
  simp [parseFloat, h, Numeral.toJNum, Dec.toRat]

theorem requestBody_passes_of_nonzero (today : String) (s : AppState) (q : ℚ)
    (hg : s.title ≠ "" ∧ s.amount ≠ "" ∧ s.isSubmitting = false)
    (hc : s.category ∈ categoryOptions) (hq : parseFloat s.amount = .fin q) (hq0 : q ≠ 0) :
    ∃ s1 req, addTransactionBegin today s = (s1, some req) ∧
      requiredFieldMissing (requestBody req) = false := by
  refine ⟨_, _, addTransactionBegin_passed today s hg, ?_⟩
  have hcat : s.category ≠ "" := by
    intro h0
    rw [h0] at hc
    simp [categoryOptions] at hc
  have hty : s.type.toString ≠ "" := by
    cases s.type <;> decide
  simp [requiredFieldMissing, requestBody, jsonNumber, JVal.truthy, hq, hq0, hg.1, hcat, hty]

/-- C10: the draft with title `Coffee` and amount string `0` passes the
client's submit guard, a request is issued, and the server answers its body
with the 400 required-fields response and stores nothing. -/
theorem zero_amount_draft_rejected (today : String) (now : Nat) (store : List Doc) :
    ∃ s1 req,
      addTransactionBegin today { initialState with title := "Coffee", amount := "0" }
        = (s1, some req) ∧
      requiredFieldMissing (requestBody req) = true ∧
      routerPost ⟨now, none⟩ store (requestBody req)
        = (⟨400, .message missingFieldsMessage⟩, store) := by
  have hb := addTransactionBegin_passed today
    { initialState with title := "Coffee", amount := "0" } (by decide)
  refine ⟨_, _, hb, ?_⟩
  have hm : requiredFieldMissing (requestBody
      ⟨"Coffee", parseFloat "0", initialState.type, initialState.category, today⟩) = true := by
    simp [requiredFieldMissing, requestBody, parseFloat_zero, jsonNumber, JVal.truthy]
  exact ⟨hm, routerPost_of_requiredFieldMissing _ _ _ hm⟩

end ExpenseTracker
